import Mathlib

/-!
Verification of the resilient hierarchical upload engine of the repository
(`.github/actions/sta-upload-sharepoint/sta-sharepoint-upload.js` and the
retry primitive shared with `.github/actions/sta-import-zip/sta-import-zip.js`).

The JavaScript source is shallowly embedded: asynchronous operations become
attempt-indexed functions `Nat → Except JsError α`, the remote drive service
becomes an explicit environment of oracles, and the mutable report / folder
map become threaded state.  Each executor and each phase of the sync run
additionally returns an observation trace (invocation counts, waits, remote
calls issued) so that claims about "how many times" and "in which order"
remote calls happen are statable.
-/

/-- Characters of `sub` occur contiguously inside `l`
(the embedding of JavaScript `String.prototype.includes`). -/
def listIsInfixOf (sub : List Char) : List Char → Bool
  | [] => sub.isEmpty
  | c :: rest => sub.isPrefixOf (c :: rest) || listIsInfixOf sub rest

/-- Embedding of the JavaScript `s.includes(sub)` test used by the legacy
error-message classification paths. -/
def strIncludes (s sub : String) : Bool :=
  listIsInfixOf sub.toList s.toList

/-- A fetch `Response` as far as the retry logic observes it.  The
`Retry-After` header is represented by the outcomes of the two parses the
source applies to it: `retryAfterFloatMs` is `Math.round(parseFloat(h) * 1000)`
(`none` when `parseFloat` yields `NaN`) and `retryAfterDateMs` is
`Date.parse(h)` in epoch milliseconds (`none` when that is `NaN`).
`retryAfterPresent` is false when the header is absent or the empty string
(both falsy in the source). -/
structure GResponse where
  status : Nat
  retryAfterPresent : Bool
  retryAfterFloatMs : Option Int
  retryAfterDateMs : Option Int
deriving DecidableEq, Repr

/-- A JavaScript error as far as the retry logic observes it: its `name`,
its `message`, and the attached fetch response when one exists
(`GraphApiError` / `HttpError` carry one). -/
structure JsError where
  name : String
  message : String
  response : Option GResponse
deriving DecidableEq, Repr

/-- Embedding of `getRetryAfterDelay` (sta-sharepoint-upload.js lines 64-80,
duplicated in sta-import-zip.js): prefer the seconds parse, fall back to the
HTTP-date parse floored at zero, and report `none` (JS `null`) when the header
is absent, unparseable, or non-positive. -/
def getRetryAfterDelay (now : Int) (r : GResponse) : Option Int :=
  if !r.retryAfterPresent then none
  else
    match r.retryAfterFloatMs with
    | some m => if m > 0 then some m else none
    | none =>
      match r.retryAfterDateMs with
      | none => none
      | some d =>
        let m := max 0 (d - now)
        if m > 0 then some m else none

/-- The wait computed before a retry (lines 126-128): the `Retry-After`
delay when one was extracted, otherwise exponential backoff
`base * 2 ^ attempt`. -/
def computeWait (retryAfterDelay : Option Int) (base : Int) (attempt : Nat) : Int :=
  match retryAfterDelay with
  | some d => d
  | none => base * 2 ^ attempt

/-- Retryable HTTP statuses for upload / Graph operations (line 90). -/
def uploadRetryableStatuses : List Nat := [429, 500, 502, 503, 504]

/-- Retryable HTTP statuses for download operations
(sta-import-zip.js line 70). -/
def downloadRetryableStatuses : List Nat := [429, 502, 503, 504, 520, 521, 522, 523, 524]

/-- Failure classification of `retryUploadOperation` (lines 103-122): a
`GraphApiError` carrying a response is retryable exactly when its status is in
the fixed set, and only then is the `Retry-After` delay extracted; otherwise a
message containing "fetch failed" is retryable, and as a legacy fallback a
message containing "Graph API error S" for a retryable status S.  Returns
(isRetryable, retryAfterDelay). -/
def uploadClassify (now : Int) (e : JsError) : Bool × Option Int :=
  match e.response with
  | some resp =>
    if e.name = "GraphApiError" then
      let r := decide (resp.status ∈ uploadRetryableStatuses)
      (r, if r then getRetryAfterDelay now resp else none)
    else if strIncludes e.message "fetch failed" then (true, none)
    else (uploadRetryableStatuses.any
      (fun s => strIncludes e.message ("Graph API error " ++ toString s)), none)
  | none =>
    if strIncludes e.message "fetch failed" then (true, none)
    else (uploadRetryableStatuses.any
      (fun s => strIncludes e.message ("Graph API error " ++ toString s)), none)

/-- Failure classification of `retryDownloadOperation`
(sta-import-zip.js lines 83-102): a `TypeError` is retryable (network
failure); an `HttpError` carrying a response is retryable exactly when its
status is in the download set; otherwise a message containing the decimal
digits of a retryable status. -/
def downloadClassify (now : Int) (e : JsError) : Bool × Option Int :=
  if e.name = "TypeError" then (true, none)
  else
    match e.response with
    | some resp =>
      if e.name = "HttpError" then
        let r := decide (resp.status ∈ downloadRetryableStatuses)
        (r, if r then getRetryAfterDelay now resp else none)
      else (downloadRetryableStatuses.any
        (fun s => strIncludes e.message (toString s)), none)
    | none =>
      (downloadRetryableStatuses.any
        (fun s => strIncludes e.message (toString s)), none)

/-- Observation of one run of a retry executor: the final result, the number
of times the wrapped operation was invoked, and the waits slept between
attempts, in order. -/
structure RetryTrace (α : Type) where
  result : Except JsError α
  invocations : Nat
  waits : List Int
deriving Repr

/-- The retry loop shared by `retryUploadOperation` (lines 89-142) and
`retryDownloadOperation` (sta-import-zip.js lines 69-123), parameterised by
the failure classification.  `op` is the wrapped operation, indexed by the
attempt counter; `fuel` is the number of loop iterations remaining, kept
equal to `maxRetries + 1 - attempt` so the `fuel = 0` branch is unreachable
from `retryOperation`.  On success the result is returned; on a retryable
failure with attempts remaining the loop sleeps `computeWait` and retries;
otherwise the loop breaks and the last error is rethrown. -/
def retryAux (classify : JsError → Bool × Option Int) (base : Int)
    (op : Nat → Except JsError α) (maxRetries : Nat) :
    Nat → Nat → RetryTrace α
  | _, 0 => ⟨.error ⟨"Error", "Upload operation failed", none⟩, 0, []⟩
  | attempt, fuel + 1 =>
    match op attempt with
    | .ok v => ⟨.ok v, 1, []⟩
    | .error e =>
      let c := classify e
      if attempt < maxRetries ∧ c.1 = true then
        let w := computeWait c.2 base attempt
        let t := retryAux classify base op maxRetries (attempt + 1) fuel
        ⟨t.result, t.invocations + 1, w :: t.waits⟩
      else ⟨.error e, 1, []⟩

/-- A retry executor run from attempt 0 with the full attempt budget
`maxRetries + 1`. -/
def retryOperation (classify : JsError → Bool × Option Int) (base : Int)
    (op : Nat → Except JsError α) (maxRetries : Nat) : RetryTrace α :=
  retryAux classify base op maxRetries 0 (maxRetries + 1)

/-- Embedding of `retryUploadOperation` (lines 89-142). -/
def retryUploadOperation (now base : Int) (op : Nat → Except JsError α)
    (maxRetries : Nat) : RetryTrace α :=
  retryOperation (uploadClassify now) base op maxRetries

/-- Embedding of `retryDownloadOperation` (sta-import-zip.js lines 69-123). -/
def retryDownloadOperation (now base : Int) (op : Nat → Except JsError α)
    (maxRetries : Nat) : RetryTrace α :=
  retryOperation (downloadClassify now) base op maxRetries

/-- The error thrown by `graphFetch` on a non-ok response (lines 158-165):
a `GraphApiError` whose message starts with "Graph API error S" and which
carries the response. -/
def mkGraphApiError (resp : GResponse) : JsError :=
  ⟨"GraphApiError", "Graph API error " ++ toString resp.status, some resp⟩

/-- The error thrown by the zip-download fetch wrapper on a non-ok response:
an `HttpError` carrying the response. -/
def mkHttpError (resp : GResponse) : JsError :=
  ⟨"HttpError", "HTTP error " ++ toString resp.status, some resp⟩

/-- A file descriptor as built by `run` (lines 419-423): local name, full
local path, and relative target path (full path with the source directory
stripped, so it keeps its leading slash). -/
structure FileItem where
  name : String
  path : String
  relative : String
deriving DecidableEq, Repr

/-- The mutable `uploadReport` accumulator (lines 26-33). -/
structure UploadReport where
  uploads : Nat
  uploadList : List String
  failures : Nat
  failedList : List String
  failedFolderCreations : Nat
  lockedFiles : Nat
deriving DecidableEq, Repr

/-- The report at the start of a run. -/
def emptyUploadReport : UploadReport := ⟨0, [], 0, [], 0, 0⟩

/-- The Graph endpoint targeted by one file upload (line 204):
`/drives/DRIVE/items/FOLDER:RELATIVE:/content`, built from the root folder
id and the relative path. -/
def uploadEndpoint (driveId folderId : String) (file : FileItem) : String :=
  "/drives/" ++ driveId ++ "/items/" ++ folderId ++ ":" ++ file.relative ++ ":/content"

/-- Embedding of `uploadFileWithRetry` (lines 192-226): run the per-attempt
upload operation through the upload retry executor, converting success into
`true` and any (classified or exhausted) error into `false` — the catch
swallows every error. -/
def uploadFileWithRetry (now base : Int) (maxRetries : Nat)
    (op : Nat → Except JsError Unit) : Bool :=
  match (retryUploadOperation now base op maxRetries).result with
  | .ok _ => true
  | .error _ => false

/-- The environment of one upload phase: retry tuning and, for each file, the
attempt-indexed outcome of its PUT request. -/
structure UploadEnv where
  now : Int
  base : Int
  maxRetries : Nat
  uploadOp : FileItem → Nat → Except JsError Unit

/-- The body of the `uploadFiles` loop (lines 364-371): on success append the
relative path to the upload list and bump `uploads`, otherwise append the
local path to the failed list and bump `failures`. -/
def uploadStep (env : UploadEnv) (item : FileItem) (r : UploadReport) : UploadReport :=
  if uploadFileWithRetry env.now env.base env.maxRetries (env.uploadOp item) then
    ⟨r.uploads + 1, r.uploadList ++ [item.relative], r.failures, r.failedList,
      r.failedFolderCreations, r.lockedFiles⟩
  else
    ⟨r.uploads, r.uploadList, r.failures + 1, r.failedList ++ [item.path],
      r.failedFolderCreations, r.lockedFiles⟩

/-- Embedding of `uploadFiles` (lines 362-375): process the files in order,
recording one outcome per file and always continuing with the next file.
Also returns the ordered list of Graph endpoints targeted, one per file. -/
def uploadFiles (env : UploadEnv) (driveId folderId : String) :
    List FileItem → UploadReport → UploadReport × List String
  | [], r => (r, [])
  | item :: rest, r =>
    let rec2 := uploadFiles env driveId folderId rest (uploadStep env item r)
    (rec2.1, uploadEndpoint driveId folderId item :: rec2.2)

/-- Result of the bare folder-creation POST (lines 263-274) as the code
observes it: an ok response carrying the created item id, the distinguished
409 conflict, or a failure with another status. -/
inductive CreateResult where
  | ok (id : String)
  | conflict
  | failStatus (status : Nat)
deriving DecidableEq, Repr

/-- A remote call issued by the hierarchy builder, as recorded in the
observation trace.  `createReq` snapshots the folder map at the moment the
creation POST is issued, together with the walked parent path, the parent id
the request posts to, the segment name, the full path being ensured, and the
response; `queryReq` records a conflict re-query together with the number of
invocations its retry executor performed; `slept` records the inter-request
delay inserted after a resolved conflict. -/
inductive RemoteCall where
  | createReq (preMap : List (String × String)) (parentPath parentId name path : String)
      (result : CreateResult)
  | queryReq (parentId name : String) (invocations : Nat)
  | slept (ms : Int)
deriving DecidableEq, Repr

/-- Lookup in the folder map (JS `Map.get`; `Map.has` is its `isSome`). -/
def lookupMap : List (String × String) → String → Option String
  | [], _ => none
  | (k, v) :: rest, key => if key = k then some v else lookupMap rest key

/-- The environment of the folder-creation phase: the attempt-indexed outcome
of each creation POST (by parent id and folder name — the code only ever
issues attempt 0, since the POST is a bare fetch), the attempt-indexed
outcome of each children-filtered-by-name re-query (`none` embeds a JSON
reply without a `value` field), and the retry tuning `graphFetchWithRetry`
uses for the re-query. -/
structure FolderEnv where
  create : String → String → Nat → CreateResult
  query : String → String → Nat → Except JsError (Option (List String))
  now : Int
  base : Int
  maxRetries : Nat

/-- The state threaded through the hierarchy builder: the `folderMap` path
cache, the trace of remote calls issued so far, and the
`failedFolderCreations` counter of the report. -/
structure FolderState where
  folderMap : List (String × String)
  events : List RemoteCall
  failedFolderCreations : Nat
deriving Repr

/-- The accumulation of the current path (line 256):
`currentPath = currentPath ? currentPath + "/" + segment : segment`. -/
def joinPath (currentPath segment : String) : String :=
  if currentPath = "" then segment else currentPath ++ "/" ++ segment

/-- Helper for `splitOnSlash`: split a character list at every slash,
accumulating the current piece in reverse. -/
def splitSlashAux : List Char → List Char → List String
  | [], acc => [String.mk acc.reverse]
  | ch :: rest, acc =>
    if ch = '/' then String.mk acc.reverse :: splitSlashAux rest []
    else splitSlashAux rest (ch :: acc)

/-- Embedding of the JavaScript `folder.path.split("/")` (line 249): split on
every slash, keeping empty pieces (so a leading slash yields a leading empty
segment). -/
def splitOnSlash (s : String) : List String :=
  splitSlashAux s.toList []

/-- A descriptor in `sourceStructure.folders` after the mapping at lines
406-409: the folder name and its path relative to the source directory
(which keeps a leading slash, producing an empty first segment on split). -/
structure SourceFolder where
  name : String
  path : String
deriving DecidableEq, Repr

/-- Embedding of the inner segment loop of `createFoldersIfNecessary`
(lines 255-303): walk the path segments from the root down, extending the
current path; reuse the cached id when present, otherwise issue the creation
POST; on ok cache the new id, on 409 re-query the parent children by name
through the retry executor and adopt a unique match (sleeping the
inter-request delay), and on any other status bump the failed-creation
counter and abort with the fatal message.  Returns the final state and the
thrown error message, `none` when the walk completed. -/
def processSegments (env : FolderEnv) (delay : Int) :
    List String → String → String → FolderState → FolderState × Option String
  | [], _, _, st => (st, none)
  | seg :: rest, currentPath, parentId, st =>
    let cp := joinPath currentPath seg
    match lookupMap st.folderMap cp with
    | some pid => processSegments env delay rest cp pid st
    | none =>
      match env.create parentId seg 0 with
      | .ok id =>
        processSegments env delay rest cp id
          ⟨(cp, id) :: st.folderMap,
            st.events ++ [.createReq st.folderMap currentPath parentId seg cp (.ok id)],
            st.failedFolderCreations⟩
      | .conflict =>
        let st2 : FolderState :=
          ⟨st.folderMap,
            st.events ++ [.createReq st.folderMap currentPath parentId seg cp .conflict,
              .queryReq parentId seg
                (retryUploadOperation env.now env.base (env.query parentId seg)
                  env.maxRetries).invocations],
            st.failedFolderCreations⟩
        match (retryUploadOperation env.now env.base (env.query parentId seg)
            env.maxRetries).result with
        | .error e => (st2, some e.message)
        | .ok none =>
          (st2, some ("Failed to get data for existing folder " ++ cp ++ ". Upload is aborted."))
        | .ok (some []) =>
          (st2, some ("Failed to get data for existing folder " ++ cp ++ ". Upload is aborted."))
        | .ok (some [id]) =>
          processSegments env delay rest cp id
            ⟨(cp, id) :: st2.folderMap, st2.events ++ [.slept delay],
              st2.failedFolderCreations⟩
        | .ok (some (_ :: _ :: _)) =>
          (st2, some ("Found multiple existing folders for " ++ cp ++ ". Upload is aborted."))
      | .failStatus s =>
        (⟨st.folderMap,
          st.events ++ [.createReq st.folderMap currentPath parentId seg cp (.failStatus s)],
          st.failedFolderCreations + 1⟩,
         some ("Failed to create folder " ++ cp ++ ". Upload is aborted."))

/-- Embedding of the outer folder loop of `createFoldersIfNecessary`
(lines 248-304): each folder path is split on "/" and walked from the root;
a thrown error propagates and stops the run. -/
def processFolders (env : FolderEnv) (delay : Int) (folderId : String) :
    List SourceFolder → FolderState → FolderState × Option String
  | [], st => (st, none)
  | f :: rest, st =>
    let res := processSegments env delay (splitOnSlash f.path) "" folderId st
    match res.2 with
    | some e => (res.1, some e)
    | none => processFolders env delay folderId rest res.1

/-- Embedding of `createFoldersIfNecessary` (lines 238-305): the folder map
starts with the empty path mapped to the remote root folder id. -/
def createFoldersIfNecessary (env : FolderEnv) (delay : Int) (folderId : String)
    (sourceFolders : List SourceFolder) : FolderState × Option String :=
  processFolders env delay folderId sourceFolders ⟨[("", folderId)], [], 0⟩

/-- The paths of the creation POSTs in a trace, in order. -/
def createPaths (evs : List RemoteCall) : List String :=
  evs.filterMap fun ev =>
    match ev with
    | .createReq _ _ _ _ p _ => some p
    | _ => none

/-- A well-formed creation event: at the moment the POST was issued, the
walked parent path was cached and the request posted to exactly its cached
id, the ensured path extends the parent path by the segment name, and the
root was cached under the empty path. -/
def CreateEventOK (rootId : String) (ev : RemoteCall) : Prop :=
  ∀ preMap parentPath parentId name path res,
    ev = .createReq preMap parentPath parentId name path res →
    lookupMap preMap parentPath = some parentId ∧
    path = joinPath parentPath name ∧
    lookupMap preMap "" = some rootId

/-- The invariant of the hierarchy builder state. -/
def SegInv (rootId : String) (st : FolderState) : Prop :=
  lookupMap st.folderMap "" = some rootId ∧
  (∀ ev ∈ st.events, CreateEventOK rootId ev) ∧
  (∀ p ∈ createPaths st.events, (lookupMap st.folderMap p).isSome) ∧
  (createPaths st.events).Nodup

/-- Modelled from the spec: C6 asserts that every remote call, including the
folder-creation POST, is subject to the retry executor.  This definition
packages the creation POST as the attempt-indexed operation the executor
would wrap — throwing a `GraphApiError` carrying the status on a non-ok
response, as `graphFetch` does — so the builder's actual single-shot
behaviour can be compared against executor-wrapped behaviour. -/
def createThroughExecutor (env : FolderEnv) (parentId name : String) :
    RetryTrace String :=
  retryUploadOperation env.now env.base
    (fun i =>
      match env.create parentId name i with
      | .ok id => .ok id
      | .conflict => .error (mkGraphApiError ⟨409, false, none, none⟩)
      | .failStatus s => .error (mkGraphApiError ⟨s, false, none, none⟩))
    env.maxRetries

/-- Modelled from the spec: C7 asserts the upload phase resolves each file
destination "using the cache entry for that file's destination folder path".
This definition performs exactly that resolution — look the folder path up in
the FolderPathCache and address the file name under the found id; `none` when
the path is not cached. -/
def specCacheResolvedEndpoint (cache : List (String × String)) (driveId : String)
    (folderPath fileName : String) : Option String :=
  match lookupMap cache folderPath with
  | some fid =>
    some ("/drives/" ++ driveId ++ "/items/" ++ fid ++ ":/" ++ fileName ++ ":/content")
  | none => none

/-- An entry of the local filesystem tree as `readdirSync` with file types
exposes it: a plain file, a directory with its entries, or anything else
(symbolic link, socket, device), which the scanner skips. -/
inductive FsEntry where
  | file (name : String)
  | dir (name : String) (children : List FsEntry)
  | special (name : String)
deriving Repr

/-- A name/path record pushed into `sourceStructure.folders` or `.files`
(lines 330-339). -/
structure SourceRecord where
  name : String
  path : String
deriving DecidableEq, Repr

/-- The `sourceStructure` accumulator (lines 36-39). -/
structure SourceStructure where
  folders : List SourceRecord
  files : List SourceRecord
deriving DecidableEq, Repr

/-- Embedding of `path.join(srcFolder, entry.name)` (line 326) for the
slash-free names the scanner deals with. -/
def pathJoin (a b : String) : String := a ++ "/" ++ b

/-- Embedding of the entry loop of `populateSourceStructure`
(lines 325-344): a directory is recorded and then recursed into before the
loop continues, a file is recorded, and any other entry kind is skipped
without error.  The recursive call passes no top-level flag (it defaults to
false), so the loop itself can never fail. -/
def populateEntries (srcFolder : String) (st : SourceStructure) :
    List FsEntry → SourceStructure
  | [] => st
  | .file n :: rest =>
    populateEntries srcFolder ⟨st.folders, st.files ++ [⟨n, pathJoin srcFolder n⟩]⟩ rest
  | .dir n children :: rest =>
    let st1 : SourceStructure := ⟨st.folders ++ [⟨n, pathJoin srcFolder n⟩], st.files⟩
    let st2 := populateEntries (pathJoin srcFolder n) st1 children
    populateEntries srcFolder st2 rest
  | .special _ :: rest => populateEntries srcFolder st rest

/-- Embedding of `populateSourceStructure` (lines 317-347): read the folder
entries; at the top level only, zero entries abort with the no-content
error; otherwise accumulate folders and files (subdirectory recursion runs
with the top-level flag off and cannot fail). -/
def populateSourceStructure (srcFolder : String) (entries : List FsEntry)
    (isTopLevel : Bool) (st : SourceStructure) : Except String SourceStructure :=
  if isTopLevel ∧ entries.length = 0 then
    .error ("No upload items found in " ++ srcFolder ++
      ". Ensure the zip file contains valid content.")
  else .ok (populateEntries srcFolder st entries)

/-- The outputs `run` emits (lines 427-440): `error_message` is set when the
try block saw failures (line 428) or an error was caught (line 432); the
finally block then always emits the five report outputs.  Each output is a
name/value pair, listed in emission order. -/
def emitOutputs (r : UploadReport) (caught : Option String) : List (String × String) :=
  (match caught with
   | some msg => [("error_message", "❌ Upload Error: " ++ msg)]
   | none =>
     if 0 < r.failures ∨ 0 < r.failedList.length then
       [("error_message",
         "❌ Upload Error: Some uploads failed. Check the workflow for more details.")]
     else []) ++
  [("upload_successes", toString r.uploads),
   ("upload_list", String.intercalate ", " r.uploadList),
   ("upload_failures", toString r.failures),
   ("upload_failed_list", String.intercalate ", " r.failedList),
   ("upload_failed_locked", toString r.lockedFiles)]

theorem retryAux_ok_after (classify : JsError → Bool × Option Int) (base : Int)
    (op : Nat → Except JsError α) (maxRetries : Nat) (v : α) :
    ∀ (K attempt : Nat), attempt + K ≤ maxRetries →
    (∀ i, i < K → ∃ e, op (attempt + i) = .error e ∧ (classify e).1 = true) →
    op (attempt + K) = .ok v →
    retryAux classify base op maxRetries attempt (maxRetries + 1 - attempt) =
      ⟨.ok v, K + 1,
        (retryAux classify base op maxRetries attempt (maxRetries + 1 - attempt)).waits⟩ := by
  intro K
  induction K with
  | zero =>
    intro attempt hle _ hsucc
    have hfuel : maxRetries + 1 - attempt = (maxRetries - attempt) + 1 := by omega
    rw [hfuel]
    simp only [retryAux]
    rw [show attempt + 0 = attempt from rfl] at hsucc
    rw [hsucc]
  | succ K ih =>
    intro attempt hle hfail hsucc
    have hfuel : maxRetries + 1 - attempt = (maxRetries - attempt) + 1 := by omega
    rw [hfuel]
    simp only [retryAux]
    obtain ⟨e, he, hc⟩ := hfail 0 (Nat.succ_pos K)
    rw [show attempt + 0 = attempt from rfl] at he
    rw [he]
    have hlt : attempt < maxRetries := by omega
    simp only [hlt, hc, and_self, if_pos, true_and]
    have hfuel2 : maxRetries - attempt = maxRetries + 1 - (attempt + 1) := by omega
    rw [hfuel2]
    have ih2 := ih (attempt + 1) (by omega)
      (fun i hi => by
        have := hfail (i + 1) (by omega)
        rw [show attempt + (i + 1) = attempt + 1 + i by omega] at this
        exact this)
      (by rw [show attempt + 1 + K = attempt + (K + 1) by omega]; exact hsucc)
    rw [ih2]

theorem retryOperation_ok_after (classify : JsError → Bool × Option Int)
    (base : Int) (op : Nat → Except JsError α) (maxRetries K : Nat) (v : α)
    (hK : K ≤ maxRetries)
    (hfail : ∀ i, i < K → ∃ e, op i = .error e ∧ (classify e).1 = true)
    (hsucc : op K = .ok v) :
    (retryOperation classify base op maxRetries).result = .ok v ∧
      (retryOperation classify base op maxRetries).invocations = K + 1 := by
  have h := retryAux_ok_after classify base op maxRetries v K 0 (by omega)
    (fun i hi => by simpa using hfail i hi) (by simpa using hsucc)
  unfold retryOperation
  rw [show maxRetries + 1 = maxRetries + 1 - 0 from rfl, h]
  exact ⟨rfl, rfl⟩

/-- Claim C1: for every asynchronous operation and maximum retry count N, if
the operation fails with a retryable status on its first K attempts
(K ≤ maxRetries) and succeeds on attempt K+1, then the retry executor returns
that success result after exactly K+1 invocations; this holds for the upload
executor (GraphApiError failures with statuses in the upload retryable set)
and the download executor (HttpError failures with statuses in the download
retryable set) alike. -/
theorem retry_executor_returns_success_after_k_plus_one (now base : Int)
    (maxRetries K : Nat) (hK : K ≤ maxRetries) :
    (∀ (op : Nat → Except JsError α) (v : α) (resps : Nat → GResponse),
      (∀ i, i < K → op i = .error (mkGraphApiError (resps i)) ∧
        (resps i).status ∈ uploadRetryableStatuses) →
      op K = .ok v →
      (retryUploadOperation now base op maxRetries).result = .ok v ∧
        (retryUploadOperation now base op maxRetries).invocations = K + 1) ∧
    (∀ (op : Nat → Except JsError α) (v : α) (resps : Nat → GResponse),
      (∀ i, i < K → op i = .error (mkHttpError (resps i)) ∧
        (resps i).status ∈ downloadRetryableStatuses) →
      op K = .ok v →
      (retryDownloadOperation now base op maxRetries).result = .ok v ∧
        (retryDownloadOperation now base op maxRetries).invocations = K + 1) := by
  constructor
  · intro op v resps hfail hsucc
    refine retryOperation_ok_after (uploadClassify now) base op maxRetries K v hK
      (fun i hi => ?_) hsucc
    obtain ⟨he, hs⟩ := hfail i hi
    refine ⟨mkGraphApiError (resps i), he, ?_⟩
    simp [uploadClassify, mkGraphApiError, hs]
  · intro op v resps hfail hsucc
    refine retryOperation_ok_after (downloadClassify now) base op maxRetries K v hK
      (fun i hi => ?_) hsucc
    obtain ⟨he, hs⟩ := hfail i hi
    refine ⟨mkHttpError (resps i), he, ?_⟩
    simp [downloadClassify, mkHttpError, hs]

/-- Witness for C1: an operation failing twice with retryable statuses
(429 then 503) and succeeding on the third attempt yields the success result
with exactly 3 invocations, for both executors. -/
theorem retry_executor_returns_success_after_k_plus_one_witness :
    (retryUploadOperation 0 1000
      (fun i => if i < 2 then .error (mkGraphApiError ⟨if i = 0 then 429 else 503, false, none, none⟩)
                else .ok (7 : Nat)) 2).result = .ok 7 ∧
    (retryUploadOperation 0 1000
      (fun i => if i < 2 then .error (mkGraphApiError ⟨if i = 0 then 429 else 503, false, none, none⟩)
                else .ok (7 : Nat)) 2).invocations = 3 := by
  exact (retry_executor_returns_success_after_k_plus_one 0 1000 2 2 (by omega)).1
    (fun i => if i < 2 then .error (mkGraphApiError ⟨if i = 0 then 429 else 503, false, none, none⟩)
              else .ok (7 : Nat)) 7
    (fun i => ⟨if i = 0 then 429 else 503, false, none, none⟩)
    (fun i hi => by
      interval_cases i <;> exact ⟨rfl, by decide⟩)
    rfl

theorem retryAux_waits_get (classify : JsError → Bool × Option Int) (base : Int)
    (op : Nat → Except JsError α) (maxRetries : Nat) (errs : Nat → JsError) :
    ∀ (i attempt : Nat), attempt + i < maxRetries →
    (∀ j, j ≤ i → op (attempt + j) = .error (errs (attempt + j)) ∧
      (classify (errs (attempt + j))).1 = true) →
    (retryAux classify base op maxRetries attempt (maxRetries + 1 - attempt)).waits.get? i =
      some (computeWait (classify (errs (attempt + i))).2 base (attempt + i)) := by
  intro i
  induction i with
  | zero =>
    intro attempt hlt hfail
    have hfuel : maxRetries + 1 - attempt = (maxRetries - attempt) + 1 := by omega
    rw [hfuel]
    simp only [retryAux]
    obtain ⟨he, hc⟩ := hfail 0 (Nat.le_refl 0)
    rw [show attempt + 0 = attempt from rfl] at he hc
    rw [he]
    simp only [hc, and_true]
    have hlt2 : attempt < maxRetries := by omega
    simp [hlt2]
  | succ i ih =>
    intro attempt hlt hfail
    have hfuel : maxRetries + 1 - attempt = (maxRetries - attempt) + 1 := by omega
    rw [hfuel]
    simp only [retryAux]
    obtain ⟨he, hc⟩ := hfail 0 (Nat.zero_le _)
    rw [show attempt + 0 = attempt from rfl] at he hc
    rw [he]
    have hlt2 : attempt < maxRetries := by omega
    simp only [hlt2, hc, and_self, if_pos, true_and]
    have hfuel2 : maxRetries - attempt = maxRetries + 1 - (attempt + 1) := by omega
    rw [hfuel2]
    have ih2 := ih (attempt + 1) (by omega)
      (fun j hj => by
        have := hfail (j + 1) (by omega)
        rw [show attempt + (j + 1) = attempt + 1 + j by omega] at this
        exact this)
    simp only [List.get?_cons_succ]
    rw [ih2, show attempt + 1 + i = attempt + (i + 1) by omega]

theorem uploadClassify_graphApiError (now : Int) (resp : GResponse)
    (hs : resp.status ∈ uploadRetryableStatuses) :
    uploadClassify now (mkGraphApiError resp) = (true, getRetryAfterDelay now resp) := by
  simp [uploadClassify, mkGraphApiError, hs]

/-- Claim C5: on a retryable failure with attempts remaining, the wait before
the next attempt is the Retry-After value when the header is present and
valid (a header parsing to 5 seconds yields a 5000 ms wait regardless of the
attempt number); only when the header is absent is the exponential backoff
base * 2 ^ attempt used.  Stated on the wait recorded at attempt `i` of the
upload executor when attempts 0..i all fail with retryable Graph errors. -/
theorem retry_after_header_precedence_over_backoff (now base : Int)
    (maxRetries : Nat) (op : Nat → Except JsError α) (resps : Nat → GResponse)
    (i : Nat) (hi : i < maxRetries)
    (hfail : ∀ j, j ≤ i → op j = .error (mkGraphApiError (resps j)) ∧
      (resps j).status ∈ uploadRetryableStatuses) :
    (retryUploadOperation now base op maxRetries).waits.get? i =
      some (computeWait (getRetryAfterDelay now (resps i)) base i) ∧
    ((resps i).retryAfterPresent = true → (resps i).retryAfterFloatMs = some 5000 →
      (retryUploadOperation now base op maxRetries).waits.get? i = some 5000) ∧
    ((resps i).retryAfterPresent = false →
      (retryUploadOperation now base op maxRetries).waits.get? i =
        some (base * 2 ^ i)) := by
  have hmain : (retryUploadOperation now base op maxRetries).waits.get? i =
      some (computeWait (getRetryAfterDelay now (resps i)) base i) := by
    have h := retryAux_waits_get (uploadClassify now) base op maxRetries
      (fun j => mkGraphApiError (resps j)) i 0 (by omega)
      (fun j hj => by
        obtain ⟨he, hs⟩ := hfail j hj
        constructor
        · simpa using he
        · simp only
          rw [show (0 : Nat) + j = j from Nat.zero_add j]
          rw [uploadClassify_graphApiError now (resps j) hs])
    unfold retryUploadOperation retryOperation
    rw [show maxRetries + 1 = maxRetries + 1 - 0 from rfl, h]
    rw [show (0 : Nat) + i = i from Nat.zero_add i]
    rw [uploadClassify_graphApiError now (resps i) (hfail i (Nat.le_refl i)).2]
  refine ⟨hmain, ?_, ?_⟩
  · intro hp hf
    rw [hmain]
    simp [getRetryAfterDelay, computeWait, hp, hf]
  · intro hp
    rw [hmain]
    simp [getRetryAfterDelay, computeWait, hp]

/-- Witness for C5: with attempts 0 and 1 both failing with a 429 response
whose Retry-After parses to 5 seconds, the wait recorded before the second
retry (attempt index 1) is 5000 ms, not the backoff 1000 * 2 ^ 1. -/
theorem retry_after_header_precedence_over_backoff_witness :
    (retryUploadOperation 0 1000
      (fun _ => (.error (mkGraphApiError ⟨429, true, some 5000, none⟩) : Except JsError Nat))
      2).waits.get? 1 = some 5000 := by
  exact (retry_after_header_precedence_over_backoff 0 1000 2
    (fun _ => (.error (mkGraphApiError ⟨429, true, some 5000, none⟩) : Except JsError Nat))
    (fun _ => ⟨429, true, some 5000, none⟩) 1 (by omega)
    (fun j hj => ⟨rfl, by simp [uploadRetryableStatuses]⟩)).2.1 rfl rfl

theorem uploadStep_outcome (env : UploadEnv) (item : FileItem) (r : UploadReport) :
    (uploadStep env item r).uploads + (uploadStep env item r).failures =
        r.uploads + r.failures + 1 ∧
    (uploadStep env item r).uploadList.length + (uploadStep env item r).failedList.length =
        r.uploadList.length + r.failedList.length + 1 ∧
    (r.uploads = r.uploadList.length →
      (uploadStep env item r).uploads = (uploadStep env item r).uploadList.length) ∧
    (r.failures = r.failedList.length →
      (uploadStep env item r).failures = (uploadStep env item r).failedList.length) := by
  unfold uploadStep
  split <;> simp <;> omega

theorem uploadFiles_unfold_cons (env : UploadEnv) (driveId folderId : String)
    (item : FileItem) (rest : List FileItem) (r : UploadReport) :
    uploadFiles env driveId folderId (item :: rest) r =
      ((uploadFiles env driveId folderId rest (uploadStep env item r)).1,
        uploadEndpoint driveId folderId item ::
          (uploadFiles env driveId folderId rest (uploadStep env item r)).2) := rfl

/-- Claim C3: in the file-upload phase over a list of F files, each file
yields exactly one terminal outcome — counters and lists grow by exactly one
entry per file, so uploadedCount + failedCount = (initial counts) + F, and
the counters stay equal to the lengths of their lists; moreover processing is
compositional: a prefix of the file list never aborts the run or skips the
remaining files. -/
theorem upload_phase_one_outcome_per_file (env : UploadEnv)
    (driveId folderId : String) :
    ∀ (files : List FileItem) (r : UploadReport),
    (uploadFiles env driveId folderId files r).1.uploads +
        (uploadFiles env driveId folderId files r).1.failures =
      r.uploads + r.failures + files.length ∧
    (uploadFiles env driveId folderId files r).1.uploadList.length +
        (uploadFiles env driveId folderId files r).1.failedList.length =
      r.uploadList.length + r.failedList.length + files.length ∧
    (r.uploads = r.uploadList.length → r.failures = r.failedList.length →
      (uploadFiles env driveId folderId files r).1.uploads =
          (uploadFiles env driveId folderId files r).1.uploadList.length ∧
        (uploadFiles env driveId folderId files r).1.failures =
          (uploadFiles env driveId folderId files r).1.failedList.length) ∧
    (∀ files2, uploadFiles env driveId folderId (files ++ files2) r =
      ((uploadFiles env driveId folderId files2
          (uploadFiles env driveId folderId files r).1).1,
        (uploadFiles env driveId folderId files r).2 ++
          (uploadFiles env driveId folderId files2
            (uploadFiles env driveId folderId files r).1).2)) := by
  intro files
  induction files with
  | nil =>
    intro r
    refine ⟨by simp [uploadFiles], by simp [uploadFiles], ?_, ?_⟩
    · intro h1 h2
      exact ⟨by simpa [uploadFiles] using h1, by simpa [uploadFiles] using h2⟩
    · intro files2
      simp [uploadFiles]
  | cons item rest ih =>
    intro r
    have hstep := uploadStep_outcome env item r
    have ihr := ih (uploadStep env item r)
    refine ⟨?_, ?_, ?_, ?_⟩
    · rw [uploadFiles_unfold_cons]
      have h1 := ihr.1
      simp only [List.length_cons]
      omega
    · rw [uploadFiles_unfold_cons]
      have h2 := ihr.2.1
      simp only [List.length_cons]
      omega
    · intro h1 h2
      rw [uploadFiles_unfold_cons]
      exact ihr.2.2.1 (hstep.2.2.1 h1) (hstep.2.2.2 h2)
    · intro files2
      rw [List.cons_append, uploadFiles_unfold_cons, uploadFiles_unfold_cons]
      rw [ihr.2.2.2 files2]
      simp

/-- Witness for C3: two files, of which the second always fails with a
non-retryable error, yield uploadedCount 1, failedCount 1, both lists of
length one, and the run processes the failing file followed by the next. -/
theorem upload_phase_one_outcome_per_file_witness :
    ((uploadFiles
        ⟨0, 1000, 2, fun f _ => if f.name = "bad" then .error ⟨"Error", "denied", none⟩ else .ok ()⟩
        "D" "ROOT"
        [⟨"bad", "/tmp/docx/bad.docx", "/bad.docx"⟩, ⟨"ok", "/tmp/docx/ok.docx", "/ok.docx"⟩]
        emptyUploadReport).1.uploads +
      (uploadFiles
        ⟨0, 1000, 2, fun f _ => if f.name = "bad" then .error ⟨"Error", "denied", none⟩ else .ok ()⟩
        "D" "ROOT"
        [⟨"bad", "/tmp/docx/bad.docx", "/bad.docx"⟩, ⟨"ok", "/tmp/docx/ok.docx", "/ok.docx"⟩]
        emptyUploadReport).1.failures = 2) ∧
    ((uploadFiles
        ⟨0, 1000, 2, fun f _ => if f.name = "bad" then .error ⟨"Error", "denied", none⟩ else .ok ()⟩
        "D" "ROOT"
        [⟨"bad", "/tmp/docx/bad.docx", "/bad.docx"⟩, ⟨"ok", "/tmp/docx/ok.docx", "/ok.docx"⟩]
        emptyUploadReport).1.uploads =
      (uploadFiles
        ⟨0, 1000, 2, fun f _ => if f.name = "bad" then .error ⟨"Error", "denied", none⟩ else .ok ()⟩
        "D" "ROOT"
        [⟨"bad", "/tmp/docx/bad.docx", "/bad.docx"⟩, ⟨"ok", "/tmp/docx/ok.docx", "/ok.docx"⟩]
        emptyUploadReport).1.uploadList.length) := by
  have h := upload_phase_one_outcome_per_file
    ⟨0, 1000, 2, fun f _ => if f.name = "bad" then .error ⟨"Error", "denied", none⟩ else .ok ()⟩
    "D" "ROOT"
    [⟨"bad", "/tmp/docx/bad.docx", "/bad.docx"⟩, ⟨"ok", "/tmp/docx/ok.docx", "/ok.docx"⟩]
    emptyUploadReport
  exact ⟨h.1, (h.2.2.1 rfl rfl).1⟩

theorem lookupMap_cons (k v key : String) (m : List (String × String)) :
    lookupMap ((k, v) :: m) key = if key = k then some v else lookupMap m key := rfl

theorem lookupMap_insert_pres (m : List (String × String)) (k v key w : String)
    (hk : lookupMap m k = none) (h : lookupMap m key = some w) :
    lookupMap ((k, v) :: m) key = some w := by
  rw [lookupMap_cons]
  split
  · next heq => rw [heq] at h; rw [h] at hk; cases hk
  · exact h

theorem lookupMap_cons_isSome (m : List (String × String)) (k v key : String)
    (h : (lookupMap m key).isSome) : (lookupMap ((k, v) :: m) key).isSome := by
  rw [lookupMap_cons]
  split
  · rfl
  · exact h

theorem createPaths_append (a b : List RemoteCall) :
    createPaths (a ++ b) = createPaths a ++ createPaths b :=
  List.filterMap_append a b _

theorem createEventOK_queryReq (rootId parentId name : String) (n : Nat) :
    CreateEventOK rootId (.queryReq parentId name n) := by
  intro _ _ _ _ _ _ h
  cases h

theorem createEventOK_slept (rootId : String) (ms : Int) :
    CreateEventOK rootId (.slept ms) := by
  intro _ _ _ _ _ _ h
  cases h

theorem processSegments_hit (env : FolderEnv) (delay : Int) (seg : String)
    (rest : List String) (c p pid : String) (st : FolderState)
    (h : lookupMap st.folderMap (joinPath c seg) = some pid) :
    processSegments env delay (seg :: rest) c p st =
      processSegments env delay rest (joinPath c seg) pid st := by
  simp only [processSegments, h]

theorem processSegments_create_ok (env : FolderEnv) (delay : Int) (seg : String)
    (rest : List String) (c p id : String) (st : FolderState)
    (hmiss : lookupMap st.folderMap (joinPath c seg) = none)
    (hcr : env.create p seg 0 = .ok id) :
    processSegments env delay (seg :: rest) c p st =
      processSegments env delay rest (joinPath c seg) id
        ⟨(joinPath c seg, id) :: st.folderMap,
          st.events ++ [.createReq st.folderMap c p seg (joinPath c seg) (.ok id)],
          st.failedFolderCreations⟩ := by
  simp only [processSegments, hmiss, hcr]

theorem processSegments_conflict_adopt (env : FolderEnv) (delay : Int) (seg : String)
    (rest : List String) (c p id : String) (st : FolderState)
    (hmiss : lookupMap st.folderMap (joinPath c seg) = none)
    (hcr : env.create p seg 0 = .conflict)
    (hq : (retryUploadOperation env.now env.base (env.query p seg) env.maxRetries).result
      = .ok (some [id])) :
    processSegments env delay (seg :: rest) c p st =
      processSegments env delay rest (joinPath c seg) id
        ⟨(joinPath c seg, id) :: st.folderMap,
          (st.events ++ [.createReq st.folderMap c p seg (joinPath c seg) .conflict,
            .queryReq p seg
              (retryUploadOperation env.now env.base (env.query p seg)
                env.maxRetries).invocations]) ++ [.slept delay],
          st.failedFolderCreations⟩ := by
  simp only [processSegments, hmiss, hcr, hq]

theorem processSegments_conflict_missing (env : FolderEnv) (delay : Int) (seg : String)
    (rest : List String) (c p : String) (st : FolderState)
    (hmiss : lookupMap st.folderMap (joinPath c seg) = none)
    (hcr : env.create p seg 0 = .conflict)
    (hq : (retryUploadOperation env.now env.base (env.query p seg) env.maxRetries).result
        = .ok none ∨
      (retryUploadOperation env.now env.base (env.query p seg) env.maxRetries).result
        = .ok (some [])) :
    processSegments env delay (seg :: rest) c p st =
      (⟨st.folderMap,
        st.events ++ [.createReq st.folderMap c p seg (joinPath c seg) .conflict,
          .queryReq p seg
            (retryUploadOperation env.now env.base (env.query p seg)
              env.maxRetries).invocations],
        st.failedFolderCreations⟩,
       some ("Failed to get data for existing folder " ++ joinPath c seg ++
         ". Upload is aborted.")) := by
  rcases hq with hq | hq <;> simp only [processSegments, hmiss, hcr, hq]

theorem processSegments_conflict_multi (env : FolderEnv) (delay : Int) (seg : String)
    (rest : List String) (c p x y : String) (l : List String) (st : FolderState)
    (hmiss : lookupMap st.folderMap (joinPath c seg) = none)
    (hcr : env.create p seg 0 = .conflict)
    (hq : (retryUploadOperation env.now env.base (env.query p seg) env.maxRetries).result
      = .ok (some (x :: y :: l))) :
    processSegments env delay (seg :: rest) c p st =
      (⟨st.folderMap,
        st.events ++ [.createReq st.folderMap c p seg (joinPath c seg) .conflict,
          .queryReq p seg
            (retryUploadOperation env.now env.base (env.query p seg)
              env.maxRetries).invocations],
        st.failedFolderCreations⟩,
       some ("Found multiple existing folders for " ++ joinPath c seg ++
         ". Upload is aborted.")) := by
  simp only [processSegments, hmiss, hcr, hq]

theorem processSegments_conflict_queryError (env : FolderEnv) (delay : Int) (seg : String)
    (rest : List String) (c p : String) (e : JsError) (st : FolderState)
    (hmiss : lookupMap st.folderMap (joinPath c seg) = none)
    (hcr : env.create p seg 0 = .conflict)
    (hq : (retryUploadOperation env.now env.base (env.query p seg) env.maxRetries).result
      = .error e) :
    processSegments env delay (seg :: rest) c p st =
      (⟨st.folderMap,
        st.events ++ [.createReq st.folderMap c p seg (joinPath c seg) .conflict,
          .queryReq p seg
            (retryUploadOperation env.now env.base (env.query p seg)
              env.maxRetries).invocations],
        st.failedFolderCreations⟩,
       some e.message) := by
  simp only [processSegments, hmiss, hcr, hq]

theorem processSegments_create_fail (env : FolderEnv) (delay : Int) (seg : String)
    (rest : List String) (c p : String) (s : Nat) (st : FolderState)
    (hmiss : lookupMap st.folderMap (joinPath c seg) = none)
    (hcr : env.create p seg 0 = .failStatus s) :
    processSegments env delay (seg :: rest) c p st =
      (⟨st.folderMap,
        st.events ++ [.createReq st.folderMap c p seg (joinPath c seg) (.failStatus s)],
        st.failedFolderCreations + 1⟩,
       some ("Failed to create folder " ++ joinPath c seg ++ ". Upload is aborted.")) := by
  simp only [processSegments, hmiss, hcr]

theorem createEventOK_createReq (rootId : String) (m : List (String × String))
    (c p seg cp : String) (res : CreateResult)
    (hlk : lookupMap m c = some p) (hcp : cp = joinPath c seg)
    (hroot : lookupMap m "" = some rootId) :
    CreateEventOK rootId (.createReq m c p seg cp res) := by
  intro preMap pp pid nm pth r h
  cases h
  exact ⟨hlk, hcp, hroot⟩

theorem createPaths_extend_ok (rootId : String) (st : FolderState) (cp : String)
    (extraEvs : List RemoteCall)
    (hevs : ∀ ev ∈ st.events, CreateEventOK rootId ev)
    (hpathsSome : ∀ q ∈ createPaths st.events, (lookupMap st.folderMap q).isSome)
    (hnodup : (createPaths st.events).Nodup)
    (hmiss : lookupMap st.folderMap cp = none)
    (hEvsOK : ∀ ev ∈ extraEvs, CreateEventOK rootId ev)
    (hPaths : createPaths extraEvs = [cp]) :
    (∀ ev ∈ st.events ++ extraEvs, CreateEventOK rootId ev) ∧
    (createPaths (st.events ++ extraEvs)).Nodup := by
  have hnotmem : cp ∉ createPaths st.events := by
    intro hmem
    have := hpathsSome cp hmem
    rw [hmiss] at this
    cases this
  constructor
  · intro ev hev
    rcases List.mem_append.1 hev with h | h
    · exact hevs ev h
    · exact hEvsOK ev h
  · rw [createPaths_append, hPaths]
    simp only [List.nodup_append, List.nodup_cons, List.not_mem_nil, not_false_iff,
      List.nodup_nil, and_true, true_and]
    refine ⟨hnodup, ?_⟩
    intro a ha hmem
    rcases List.mem_singleton.1 hmem with rfl
    exact hnotmem ha

theorem SegInv_extend (rootId : String) (st : FolderState) (c p seg id : String)
    (extraEvs : List RemoteCall)
    (hInv : SegInv rootId st)
    (_hlk : lookupMap st.folderMap c = some p)
    (hmiss : lookupMap st.folderMap (joinPath c seg) = none)
    (hEvsOK : ∀ ev ∈ extraEvs, CreateEventOK rootId ev)
    (hPaths : createPaths extraEvs = [joinPath c seg]) :
    SegInv rootId ⟨(joinPath c seg, id) :: st.folderMap, st.events ++ extraEvs,
      st.failedFolderCreations⟩ := by
  obtain ⟨hroot, hevs, hpathsSome, hnodup⟩ := hInv
  obtain ⟨hevs2, hnodup2⟩ := createPaths_extend_ok rootId st (joinPath c seg) extraEvs
    hevs hpathsSome hnodup hmiss hEvsOK hPaths
  refine ⟨lookupMap_insert_pres _ _ _ _ _ hmiss hroot, hevs2, ?_, hnodup2⟩
  intro q hq
  rw [createPaths_append, hPaths] at hq
  rcases List.mem_append.1 hq with h | h
  · exact lookupMap_cons_isSome _ _ _ _ (hpathsSome q h)
  · rcases List.mem_singleton.1 h with rfl
    rw [lookupMap_cons]
    simp

theorem processSegments_invariant (env : FolderEnv) (delay : Int) (rootId : String) :
    ∀ (segs : List String) (c p : String) (st : FolderState),
    SegInv rootId st →
    lookupMap st.folderMap c = some p →
    (∀ ev ∈ (processSegments env delay segs c p st).1.events, CreateEventOK rootId ev) ∧
    (createPaths (processSegments env delay segs c p st).1.events).Nodup ∧
    lookupMap (processSegments env delay segs c p st).1.folderMap "" = some rootId ∧
    ((processSegments env delay segs c p st).2 = none →
      SegInv rootId (processSegments env delay segs c p st).1) := by
  intro segs
  induction segs with
  | nil =>
    intro c p st hInv _hlk
    exact ⟨hInv.2.1, hInv.2.2.2, hInv.1, fun _ => hInv⟩
  | cons seg rest ih =>
    intro c p st hInv hlk
    rcases hcp : lookupMap st.folderMap (joinPath c seg) with _ | pid
    · rcases hcr : env.create p seg 0 with id | _ | s
      · rw [processSegments_create_ok env delay seg rest c p id st hcp hcr]
        refine ih (joinPath c seg) id _ ?_ ?_
        · refine SegInv_extend rootId st c p seg id _ hInv hlk hcp ?_ ?_
          · intro ev hev
            rcases List.mem_singleton.1 hev with rfl
            exact createEventOK_createReq rootId st.folderMap c p seg _ _ hlk rfl hInv.1
          · simp [createPaths]
        · rw [lookupMap_cons]
          simp
      · have hOK2 : ∀ ev ∈
            [RemoteCall.createReq st.folderMap c p seg (joinPath c seg) .conflict,
              RemoteCall.queryReq p seg
                (retryUploadOperation env.now env.base (env.query p seg)
                  env.maxRetries).invocations],
            CreateEventOK rootId ev := by
          intro ev hev
          rcases List.mem_cons.1 hev with rfl | hev
          · exact createEventOK_createReq rootId st.folderMap c p seg _ _ hlk rfl hInv.1
          · rcases List.mem_singleton.1 hev with rfl
            exact createEventOK_queryReq rootId p seg _
        have hterm := createPaths_extend_ok rootId st (joinPath c seg)
          [.createReq st.folderMap c p seg (joinPath c seg) .conflict,
            .queryReq p seg
              (retryUploadOperation env.now env.base (env.query p seg)
                env.maxRetries).invocations]
          hInv.2.1 hInv.2.2.1 hInv.2.2.2 hcp hOK2 (by simp [createPaths])
        rcases hq : (retryUploadOperation env.now env.base (env.query p seg)
            env.maxRetries).result with e | v
        · rw [processSegments_conflict_queryError env delay seg rest c p e st hcp hcr hq]
          exact ⟨hterm.1, hterm.2, hInv.1, by simp⟩
        · rcases v with _ | l
          · rw [processSegments_conflict_missing env delay seg rest c p st hcp hcr (Or.inl hq)]
            exact ⟨hterm.1, hterm.2, hInv.1, by simp⟩
          · rcases l with _ | ⟨x, l⟩
            · rw [processSegments_conflict_missing env delay seg rest c p st hcp hcr
                (Or.inr hq)]
              exact ⟨hterm.1, hterm.2, hInv.1, by simp⟩
            · rcases l with _ | ⟨y, l⟩
              · rw [processSegments_conflict_adopt env delay seg rest c p x st hcp hcr hq,
                  List.append_assoc]
                refine ih (joinPath c seg) x _ ?_ ?_
                · refine SegInv_extend rootId st c p seg x _ hInv hlk hcp ?_ ?_
                  · intro ev hev
                    rcases List.mem_cons.1 hev with rfl | hev
                    · exact createEventOK_createReq rootId st.folderMap c p seg _ _ hlk rfl
                        hInv.1
                    · rcases List.mem_cons.1 hev with rfl | hev
                      · exact createEventOK_queryReq rootId p seg _
                      · rcases List.mem_singleton.1 hev with rfl
                        exact createEventOK_slept rootId delay
                  · simp [createPaths]
                · rw [lookupMap_cons]
                  simp
              · rw [processSegments_conflict_multi env delay seg rest c p x y l st hcp hcr hq]
                exact ⟨hterm.1, hterm.2, hInv.1, by simp⟩
      · have hOK1 : ∀ ev ∈
            [RemoteCall.createReq st.folderMap c p seg (joinPath c seg) (.failStatus s)],
            CreateEventOK rootId ev := by
          intro ev hev
          rcases List.mem_singleton.1 hev with rfl
          exact createEventOK_createReq rootId st.folderMap c p seg _ _ hlk rfl hInv.1
        have hterm := createPaths_extend_ok rootId st (joinPath c seg)
          [.createReq st.folderMap c p seg (joinPath c seg) (.failStatus s)]
          hInv.2.1 hInv.2.2.1 hInv.2.2.2 hcp hOK1 (by simp [createPaths])
        rw [processSegments_create_fail env delay seg rest c p s st hcp hcr]
        exact ⟨hterm.1, hterm.2, hInv.1, by simp⟩
    · rw [processSegments_hit env delay seg rest c p pid st hcp]
      exact ih (joinPath c seg) pid st hInv hcp

theorem processFolders_invariant (env : FolderEnv) (delay : Int) (rootId : String) :
    ∀ (folders : List SourceFolder) (st : FolderState),
    SegInv rootId st →
    (∀ ev ∈ (processFolders env delay rootId folders st).1.events, CreateEventOK rootId ev) ∧
    (createPaths (processFolders env delay rootId folders st).1.events).Nodup ∧
    lookupMap (processFolders env delay rootId folders st).1.folderMap "" = some rootId ∧
    ((processFolders env delay rootId folders st).2 = none →
      SegInv rootId (processFolders env delay rootId folders st).1) := by
  intro folders
  induction folders with
  | nil =>
    intro st hInv
    exact ⟨hInv.2.1, hInv.2.2.2, hInv.1, fun _ => hInv⟩
  | cons f rest ih =>
    intro st hInv
    have hseg := processSegments_invariant env delay rootId (splitOnSlash f.path) "" rootId st
      hInv hInv.1
    rcases hres : (processSegments env delay (splitOnSlash f.path) "" rootId st).2 with _ | e
    · have heq : processFolders env delay rootId (f :: rest) st =
          processFolders env delay rootId rest
            (processSegments env delay (splitOnSlash f.path) "" rootId st).1 := by
        simp only [processFolders, hres]
      rw [heq]
      exact ih _ (hseg.2.2.2 hres)
    · have heq : processFolders env delay rootId (f :: rest) st =
          ((processSegments env delay (splitOnSlash f.path) "" rootId st).1, some e) := by
        simp only [processFolders, hres]
      rw [heq]
      exact ⟨hseg.1, hseg.2.1, hseg.2.2.1, by simp⟩

theorem SegInv_init (folderId : String) : SegInv folderId ⟨[("", folderId)], [], 0⟩ := by
  refine ⟨by simp [lookupMap], ?_, ?_, ?_⟩
  · intro ev hev
    cases hev
  · intro q hq
    cases hq
  · exact List.nodup_nil

/-- Claim C4: the hierarchy builder never issues a creation POST for a folder
whose parent path is absent from the folder-path cache: for every creation
request in the trace of a run, the walked parent path was cached at the
moment of the request, the request posted to exactly that cached parent id,
the ensured path extends the parent path by one segment, and the cache held
the empty path mapped to the remote root id. -/
theorem folder_create_parent_cached_before_create (env : FolderEnv) (delay : Int)
    (folderId : String) (folders : List SourceFolder)
    (preMap : List (String × String)) (parentPath parentId name path : String)
    (res : CreateResult)
    (hev : RemoteCall.createReq preMap parentPath parentId name path res ∈
      (createFoldersIfNecessary env delay folderId folders).1.events) :
    lookupMap preMap parentPath = some parentId ∧
    path = joinPath parentPath name ∧
    lookupMap preMap "" = some folderId := by
  have h := (processFolders_invariant env delay folderId folders
    ⟨[("", folderId)], [], 0⟩ (SegInv_init folderId)).1
  exact h _ hev preMap parentPath parentId name path res rfl

/-- Witness for C4: creating the single folder "a" under root id "R" issues
one creation request whose snapshot cache maps the parent path "" to "R". -/
theorem folder_create_parent_cached_before_create_witness :
    lookupMap [("", "R")] "" = some "R" ∧
    "a" = joinPath "" "a" ∧
    lookupMap [("", "R")] "" = some "R" := by
  exact folder_create_parent_cached_before_create
    ⟨fun _ _ _ => .ok "X", fun _ _ _ => .ok none, 0, 1000, 2⟩ 5 "R" [⟨"a", "a"⟩]
    [("", "R")] "" "R" "a" "a" (.ok "X")
    (by
      have h : (createFoldersIfNecessary
          ⟨fun _ _ _ => .ok "X", fun _ _ _ => .ok none, 0, 1000, 2⟩ 5 "R"
          [⟨"a", "a"⟩]).1.events =
          [RemoteCall.createReq [("", "R")] "" "R" "a" "a" (.ok "X")] := rfl
      rw [h]
      exact List.mem_singleton_self _)

/-- Claim C10: within a single run, the hierarchy builder issues at most one
creation POST per distinct folder prefix path — the paths of the creation
requests in the trace are pairwise distinct, for every environment and every
folder list (including lists with duplicate or prefix-sharing paths). -/
theorem folder_create_at_most_once_per_path (env : FolderEnv) (delay : Int)
    (folderId : String) (folders : List SourceFolder) :
    (createPaths (createFoldersIfNecessary env delay folderId folders).1.events).Nodup :=
  (processFolders_invariant env delay folderId folders
    ⟨[("", folderId)], [], 0⟩ (SegInv_init folderId)).2.1

/-- Claim C2: when a creation POST is rejected with the distinguished 409
conflict, the builder re-queries the parent children filtered by name: a
unique match is adopted and cached and the walk continues after the
inter-request delay; zero matches (or a reply without a value) or more than
one match abort the run with the corresponding fatal message. -/
theorem folder_conflict_requery_unique_or_abort (env : FolderEnv) (delay : Int)
    (seg : String) (rest : List String) (c p : String) (st : FolderState)
    (hmiss : lookupMap st.folderMap (joinPath c seg) = none)
    (hcr : env.create p seg 0 = .conflict) :
    (∀ id, (retryUploadOperation env.now env.base (env.query p seg)
        env.maxRetries).result = .ok (some [id]) →
      processSegments env delay (seg :: rest) c p st =
        processSegments env delay rest (joinPath c seg) id
          ⟨(joinPath c seg, id) :: st.folderMap,
            (st.events ++ [.createReq st.folderMap c p seg (joinPath c seg) .conflict,
              .queryReq p seg
                (retryUploadOperation env.now env.base (env.query p seg)
                  env.maxRetries).invocations]) ++ [.slept delay],
            st.failedFolderCreations⟩ ∧
      lookupMap ((joinPath c seg, id) :: st.folderMap) (joinPath c seg) = some id) ∧
    ((retryUploadOperation env.now env.base (env.query p seg)
          env.maxRetries).result = .ok none ∨
      (retryUploadOperation env.now env.base (env.query p seg)
          env.maxRetries).result = .ok (some []) →
      (processSegments env delay (seg :: rest) c p st).2 =
        some ("Failed to get data for existing folder " ++ joinPath c seg ++
          ". Upload is aborted.")) ∧
    (∀ x y l, (retryUploadOperation env.now env.base (env.query p seg)
        env.maxRetries).result = .ok (some (x :: y :: l)) →
      (processSegments env delay (seg :: rest) c p st).2 =
        some ("Found multiple existing folders for " ++ joinPath c seg ++
          ". Upload is aborted.")) := by
  refine ⟨?_, ?_, ?_⟩
  · intro id hq
    refine ⟨processSegments_conflict_adopt env delay seg rest c p id st hmiss hcr hq, ?_⟩
    rw [lookupMap_cons]
    simp
  · intro hq
    rw [processSegments_conflict_missing env delay seg rest c p st hmiss hcr hq]
  · intro x y l hq
    rw [processSegments_conflict_multi env delay seg rest c p x y l st hmiss hcr hq]

/-- Witness for C2: a conflict on creating "a" under the root whose re-query
returns the unique match "AID" makes the builder adopt and cache "AID" and
continue (after the recorded sleep); the adopted id is cached under "a". -/
theorem folder_conflict_requery_unique_or_abort_witness :
    (processSegments ⟨fun _ _ _ => .conflict, fun _ _ _ => .ok (some ["AID"]), 0, 1000, 2⟩
        5 ["a"] "" "R" ⟨[("", "R")], [], 0⟩ =
      processSegments ⟨fun _ _ _ => .conflict, fun _ _ _ => .ok (some ["AID"]), 0, 1000, 2⟩
        5 [] "a" "AID"
        ⟨[("a", "AID"), ("", "R")],
          ([] ++ [.createReq [("", "R")] "" "R" "a" "a" .conflict, .queryReq "R" "a" 1]) ++
            [.slept 5], 0⟩) ∧
    lookupMap [("a", "AID"), ("", "R")] "a" = some "AID" := by
  have h := (folder_conflict_requery_unique_or_abort
    ⟨fun _ _ _ => .conflict, fun _ _ _ => .ok (some ["AID"]), 0, 1000, 2⟩
    5 "a" [] "" "R" ⟨[("", "R")], [], 0⟩ (by decide) rfl).1 "AID" rfl
  exact ⟨h.1, h.2⟩

/-- Counterexample to C6: the folder-creation POST does not pass through the
retry executor.  With an environment whose creation POST fails with the
retryable status 429 on attempt 0 and would succeed on attempt 1, the builder
issues exactly one creation request and aborts the run, whereas the executor
wrapping the same operation retries and returns the success after two
invocations. -/
theorem folder_create_bypasses_executor_cex :
    (429 ∈ uploadRetryableStatuses) ∧
    (createFoldersIfNecessary
        ⟨fun _ _ i => if i = 0 then .failStatus 429 else .ok "ID",
          fun _ _ _ => .ok none, 0, 1000, 2⟩ 5 "R" [⟨"a", "a"⟩]).2 =
      some "Failed to create folder a. Upload is aborted." ∧
    createPaths (createFoldersIfNecessary
        ⟨fun _ _ i => if i = 0 then .failStatus 429 else .ok "ID",
          fun _ _ _ => .ok none, 0, 1000, 2⟩ 5 "R" [⟨"a", "a"⟩]).1.events = ["a"] ∧
    (createThroughExecutor
        ⟨fun _ _ i => if i = 0 then .failStatus 429 else .ok "ID",
          fun _ _ _ => .ok none, 0, 1000, 2⟩ "R" "a").result = .ok "ID" ∧
    (createThroughExecutor
        ⟨fun _ _ i => if i = 0 then .failStatus 429 else .ok "ID",
          fun _ _ _ => .ok none, 0, 1000, 2⟩ "R" "a").invocations = 2 := by
  exact ⟨by decide, rfl, rfl, rfl, rfl⟩

/-- Claim C6 (amended): the conflict re-query (and the file uploads) pass
through the retry executor, but the folder-creation POST does not: it is
issued exactly once, and a non-conflict failure status — even a retryable
one — aborts the run with no retry, while a re-query that fails retryably K
times and then returns a unique match is adopted after K+1 query
invocations. -/
theorem creation_post_single_shot_and_query_retried (env : FolderEnv) (delay : Int)
    (seg : String) (rest : List String) (c p : String) (st : FolderState)
    (hmiss : lookupMap st.folderMap (joinPath c seg) = none) :
    (∀ s, env.create p seg 0 = .failStatus s →
      processSegments env delay (seg :: rest) c p st =
        (⟨st.folderMap,
          st.events ++ [.createReq st.folderMap c p seg (joinPath c seg) (.failStatus s)],
          st.failedFolderCreations + 1⟩,
         some ("Failed to create folder " ++ joinPath c seg ++ ". Upload is aborted."))) ∧
    (∀ (K : Nat) (id : String) (resps : Nat → GResponse),
      env.create p seg 0 = .conflict →
      K ≤ env.maxRetries →
      (∀ i, i < K → env.query p seg i = .error (mkGraphApiError (resps i)) ∧
        (resps i).status ∈ uploadRetryableStatuses) →
      env.query p seg K = .ok (some [id]) →
      (retryUploadOperation env.now env.base (env.query p seg) env.maxRetries).result
          = .ok (some [id]) ∧
      (retryUploadOperation env.now env.base (env.query p seg) env.maxRetries).invocations
          = K + 1 ∧
      processSegments env delay (seg :: rest) c p st =
        processSegments env delay rest (joinPath c seg) id
          ⟨(joinPath c seg, id) :: st.folderMap,
            (st.events ++ [.createReq st.folderMap c p seg (joinPath c seg) .conflict,
              .queryReq p seg (K + 1)]) ++ [.slept delay],
            st.failedFolderCreations⟩) := by
  constructor
  · intro s hcr
    exact processSegments_create_fail env delay seg rest c p s st hmiss hcr
  · intro K id resps hcr hK hfail hsucc
    have hok := retryOperation_ok_after (uploadClassify env.now) env.base
      (env.query p seg) env.maxRetries K (some [id]) hK
      (fun i hi => ⟨mkGraphApiError (resps i), (hfail i hi).1,
        by simp [uploadClassify, mkGraphApiError, (hfail i hi).2]⟩) hsucc
    refine ⟨hok.1, hok.2, ?_⟩
    rw [processSegments_conflict_adopt env delay seg rest c p id st hmiss hcr hok.1]
    rw [show (retryUploadOperation env.now env.base (env.query p seg)
      env.maxRetries).invocations = K + 1 from hok.2]

/-- Witness for the amended C6: a creation POST failing with status 400 under
the root aborts the run after its single request, and a re-query that fails
with a retryable 429 once and then returns the unique match succeeds through
the executor. -/
theorem creation_post_single_shot_and_query_retried_witness :
    (processSegments ⟨fun _ _ _ => .failStatus 400, fun _ _ _ => .ok none, 0, 1000, 2⟩
        5 ["a"] "" "R" ⟨[("", "R")], [], 0⟩ =
      (⟨[("", "R")], [.createReq [("", "R")] "" "R" "a" "a" (.failStatus 400)], 1⟩,
        some "Failed to create folder a. Upload is aborted.")) ∧
    ((retryUploadOperation 0 1000
        ((⟨fun _ _ _ => .conflict,
            fun _ _ i => if i = 0 then .error (mkGraphApiError ⟨429, false, none, none⟩)
              else .ok (some ["AID"]), 0, 1000, 2⟩ : FolderEnv).query "R" "a") 2).result
      = .ok (some ["AID"])) := by
  constructor
  · exact (creation_post_single_shot_and_query_retried
      ⟨fun _ _ _ => .failStatus 400, fun _ _ _ => .ok none, 0, 1000, 2⟩
      5 "a" [] "" "R" ⟨[("", "R")], [], 0⟩ (by decide)).1 400 rfl
  · exact ((creation_post_single_shot_and_query_retried
      ⟨fun _ _ _ => .conflict,
        fun _ _ i => if i = 0 then .error (mkGraphApiError ⟨429, false, none, none⟩)
          else .ok (some ["AID"]), 0, 1000, 2⟩
      5 "a" [] "" "R" ⟨[("", "R")], [], 0⟩ (by decide)).2 1 "AID"
      (fun _ => ⟨429, false, none, none⟩) rfl (by decide)
      (fun i hi => by
        interval_cases i
        exact ⟨rfl, by simp [uploadRetryableStatuses]⟩) rfl).1

/-- Counterexample to C7: the upload phase does not use the folder-path
cache.  After the builder caches folder "a" under remote id "AID", the upload
request for the file with relative path "/a/one.txt" targets the endpoint
built from the root id "R", which differs from the endpoint resolved through
the cache entry. -/
theorem upload_ignores_folder_cache_cex :
    lookupMap (createFoldersIfNecessary
        ⟨fun _ _ _ => .ok "AID", fun _ _ _ => .ok none, 0, 1000, 2⟩ 5 "R"
        [⟨"a", "/a"⟩]).1.folderMap "a" = some "AID" ∧
    (uploadFiles ⟨0, 1000, 2, fun _ _ => .ok ()⟩ "D" "R"
        [⟨"one.txt", "/tmp/docx/a/one.txt", "/a/one.txt"⟩] emptyUploadReport).2 =
      ["/drives/D/items/R:/a/one.txt:/content"] ∧
    specCacheResolvedEndpoint (createFoldersIfNecessary
        ⟨fun _ _ _ => .ok "AID", fun _ _ _ => .ok none, 0, 1000, 2⟩ 5 "R"
        [⟨"a", "/a"⟩]).1.folderMap "D" "a" "one.txt" =
      some "/drives/D/items/AID:/one.txt:/content" ∧
    ("/drives/D/items/R:/a/one.txt:/content" : String) ≠
      "/drives/D/items/AID:/one.txt:/content" := by
  exact ⟨rfl, rfl, rfl, by decide⟩

/-- Claim C7 (amended): the upload phase does not consume the
FolderPathCache at all — every upload request's destination endpoint is built
from the remote root folder id and the file's relative path only, so the
endpoint trace of the upload phase is the map of `uploadEndpoint` over the
file list, independently of anything the builder cached. -/
theorem upload_destinations_independent_of_cache (env : UploadEnv)
    (driveId folderId : String) :
    ∀ (files : List FileItem) (r : UploadReport),
    (uploadFiles env driveId folderId files r).2 =
      files.map (uploadEndpoint driveId folderId) := by
  intro files
  induction files with
  | nil => intro r; rfl
  | cons item rest ih =>
    intro r
    rw [uploadFiles_unfold_cons]
    simp [ih]

/-- Claim C8: the scanner fails with the no-content error exactly when the
top-level directory has zero entries; below the top level it never fails (so
empty subdirectories are no error), and non-file/non-directory entries are
skipped without effect at every level. -/
theorem scanner_no_content_error_iff_empty_root (srcFolder : String) :
    (∀ (entries : List FsEntry) (st : SourceStructure),
      (∃ msg, populateSourceStructure srcFolder entries true st = .error msg) ↔
        entries = []) ∧
    (∀ (sub : String) (es : List FsEntry) (st : SourceStructure),
      populateSourceStructure sub es false st = .ok (populateEntries sub st es)) ∧
    (∀ (sub : String) (st : SourceStructure) (n : String) (rest : List FsEntry),
      populateEntries sub st (.special n :: rest) = populateEntries sub st rest) := by
  refine ⟨?_, ?_, ?_⟩
  · intro entries st
    constructor
    · intro ⟨msg, hmsg⟩
      rcases entries with _ | ⟨e, rest⟩
      · rfl
      · simp [populateSourceStructure] at hmsg
    · intro h
      subst h
      exact ⟨_, rfl⟩
  · intro sub es st
    simp [populateSourceStructure]
  · intro sub st n rest
    simp [populateEntries]

/-- Witness for C8: an empty root errors; a root consisting of a directory
that is itself empty (plus a skipped special entry) succeeds. -/
theorem scanner_no_content_error_iff_empty_root_witness :
    (∃ msg, populateSourceStructure "/tmp/docx" [] true ⟨[], []⟩ = .error msg) ∧
    populateSourceStructure "/tmp/docx/a" [.dir "b" [], .special "link"] false ⟨[], []⟩ =
      .ok (populateEntries "/tmp/docx/a" ⟨[], []⟩ [.dir "b" [], .special "link"]) := by
  exact ⟨(scanner_no_content_error_iff_empty_root "/tmp/docx").1 [] ⟨[], []⟩ |>.mpr rfl,
    (scanner_no_content_error_iff_empty_root "/tmp/docx").2.1 "/tmp/docx/a"
      [.dir "b" [], .special "link"] ⟨[], []⟩⟩

/-- Counterexample to C9: the count of folder-creation failures is not among
the emitted outputs — two final reports that differ only in
`failedFolderCreations` (3 versus 0) emit identical outputs. -/
theorem outputs_omit_folder_creation_failures_cex :
    emitOutputs ⟨1, ["/a.docx"], 0, [], 3, 0⟩ none =
      emitOutputs ⟨1, ["/a.docx"], 0, [], 0, 0⟩ none ∧
    (3 : Nat) ≠ 0 := by
  exact ⟨rfl, by decide⟩

/-- Claim C9 (amended): at the end of every run the subsystem emits the
total uploaded count, the joined ordered list of uploaded relative paths,
the total failure count, the joined ordered list of failed absolute paths,
and the lock-related failure count, plus an error message exactly when a
per-file failure occurred or a fatal error was caught; the only output keys
are those six — in particular the folder-creation-failure count is never
emitted. -/
theorem run_outputs_content (r : UploadReport) (caught : Option String) :
    lookupMap (emitOutputs r caught) "upload_successes" = some (toString r.uploads) ∧
    lookupMap (emitOutputs r caught) "upload_list" =
      some (String.intercalate ", " r.uploadList) ∧
    lookupMap (emitOutputs r caught) "upload_failures" = some (toString r.failures) ∧
    lookupMap (emitOutputs r caught) "upload_failed_list" =
      some (String.intercalate ", " r.failedList) ∧
    lookupMap (emitOutputs r caught) "upload_failed_locked" =
      some (toString r.lockedFiles) ∧
    ((lookupMap (emitOutputs r caught) "error_message").isSome ↔
      (caught.isSome ∨ 0 < r.failures ∨ r.failedList ≠ [])) ∧
    (∀ kv ∈ emitOutputs r caught, kv.1 ∈
      ["error_message", "upload_successes", "upload_list", "upload_failures",
        "upload_failed_list", "upload_failed_locked"]) := by
  rcases caught with _ | msg
  · by_cases h : 0 < r.failures ∨ 0 < r.failedList.length
    · have heq : emitOutputs r none =
          ("error_message",
            "❌ Upload Error: Some uploads failed. Check the workflow for more details.") ::
          [("upload_successes", toString r.uploads),
           ("upload_list", String.intercalate ", " r.uploadList),
           ("upload_failures", toString r.failures),
           ("upload_failed_list", String.intercalate ", " r.failedList),
           ("upload_failed_locked", toString r.lockedFiles)] := by
        simp [emitOutputs, h]
      rw [heq]
      refine ⟨rfl, rfl, rfl, rfl, rfl, ?_, ?_⟩
      · constructor
        · intro _
          rcases h with h | h
          · exact Or.inr (Or.inl h)
          · exact Or.inr (Or.inr (List.ne_nil_of_length_pos h))
        · intro _
          rfl
      · intro kv hkv
        fin_cases hkv <;> simp
    · have heq : emitOutputs r none =
          [("upload_successes", toString r.uploads),
           ("upload_list", String.intercalate ", " r.uploadList),
           ("upload_failures", toString r.failures),
           ("upload_failed_list", String.intercalate ", " r.failedList),
           ("upload_failed_locked", toString r.lockedFiles)] := by
        simp [emitOutputs, h]
      rw [heq]
      push_neg at h
      have h1 : r.failures = 0 := by omega
      have h2 : r.failedList = [] := List.length_eq_zero.1 (by omega)
      refine ⟨rfl, rfl, rfl, rfl, rfl, ?_, ?_⟩
      · have hnone : lookupMap
            [("upload_successes", toString r.uploads),
             ("upload_list", String.intercalate ", " r.uploadList),
             ("upload_failures", toString r.failures),
             ("upload_failed_list", String.intercalate ", " r.failedList),
             ("upload_failed_locked", toString r.lockedFiles)] "error_message" = none := rfl
        rw [hnone]
        simp [h1, h2]
      · intro kv hkv
        fin_cases hkv <;> simp
  · have heq : emitOutputs r (some msg) =
        ("error_message", "❌ Upload Error: " ++ msg) ::
        [("upload_successes", toString r.uploads),
         ("upload_list", String.intercalate ", " r.uploadList),
         ("upload_failures", toString r.failures),
         ("upload_failed_list", String.intercalate ", " r.failedList),
         ("upload_failed_locked", toString r.lockedFiles)] := rfl
    rw [heq]
    refine ⟨rfl, rfl, rfl, rfl, rfl, ?_, ?_⟩
    · constructor
      · intro _
        exact Or.inl rfl
      · intro _
        rfl
    · intro kv hkv
      fin_cases hkv <;> simp

/-- Witness for the amended C9: a report with one upload, one failure and
two locked files emits the matching counts, and the error message is
present. -/
theorem run_outputs_content_witness :
    lookupMap (emitOutputs ⟨1, ["/a.docx"], 1, ["/tmp/docx/b.docx"], 0, 2⟩ none)
      "upload_successes" = some "1" ∧
    (lookupMap (emitOutputs ⟨1, ["/a.docx"], 1, ["/tmp/docx/b.docx"], 0, 2⟩ none)
      "error_message").isSome := by
  have h := run_outputs_content ⟨1, ["/a.docx"], 1, ["/tmp/docx/b.docx"], 0, 2⟩ none
  exact ⟨h.1, h.2.2.2.2.2.1.mpr (Or.inr (Or.inl Nat.one_pos))⟩

